import Mathlib

/-
Shallow embedding of the DTVM EVM opcode-handler layer
(src/src/evm/opcode_handlers.cpp) and verification of the frozen claims.

Modelling conventions:
- intx::uint256 values are Nat; arithmetic that wraps modulo 2^256 or is
  truncated to 64 bits in the source is written with explicit % 2^256 and
  % 2^64.
- int64_t gas inside a frame is a Nat (the source maintains gas >= 0 and
  chargeGas compares through a uint64 cast); the sub-message gas, which the
  source obtains by casting a uint256 to int64_t, is an Int.
- memory is a byte list (resize pads with zeroes, as the source does);
  the evaluation stack is a list of Nat with the top at the head.
- the Host is a record of response functions; each handler performs at most
  one host.call, so its result is a fixed record of fields.
-/

namespace DTVM

/-- Terminal and running status codes of a frame: the evmc status codes the
handlers set through setStatus, together with the common::ErrorCode faults
raised through EVM_REQUIRE and the stack checks, which the driver surfaces as
the corresponding terminal status.  In particular the UnexpectedNumArgs error
of the stack-arity checks surfaces as the stack-underflow status of the spec,
UnexpectedEnd as unexpected-end, IntegerOverflow as integer-overflow and
EVMTooLargeRequiredMemory as too-large-memory. -/
inductive Status where
  | running
  | success
  | reverted
  | outOfGas
  | staticModeViolation
  | badJumpDestination
  | stackUnderflow
  | stackOverflow
  | unexpectedEnd
  | integerOverflow
  | tooLargeMemory
  | invalidInstruction
  deriving DecidableEq

/-- Protocol revision tags, with the numeric ordering of the evmc_revision
enumeration (only the order is used by the handlers). -/
def EVMC_FRONTIER : Nat := 0

def EVMC_HOMESTEAD : Nat := 1

def EVMC_TANGERINE_WHISTLE : Nat := 2

def EVMC_SPURIOUS_DRAGON : Nat := 3

def EVMC_BYZANTIUM : Nat := 4

def EVMC_BERLIN : Nat := 8

def EVMC_LONDON : Nat := 9

def EVMC_SHANGHAI : Nat := 11

def EVMC_CANCUN : Nat := 12

/-- Modelled from the spec: gas-table constants of section 3 (the numeric
values live in headers outside src/). -/
def WORD_COPY_COST : Nat := 3

def COLD_ACCOUNT_ACCESS_COST : Nat := 2600

def WARM_ACCOUNT_ACCESS_COST : Nat := 100

def ADDITIONAL_COLD_ACCOUNT_ACCESS_COST : Nat := 2500

def CALL_VALUE_COST : Nat := 9000

def CALL_GAS_STIPEND : Nat := 2300

def ACCOUNT_CREATION_COST : Nat := 25000

def MAX_SIZE_OF_INITCODE : Nat := 49152

/-- Modelled from the spec: MAX_CALL_DEPTH = 1024 (the MAXSTACK constant used
by the CALL and CREATE handlers lives in a header outside src/). -/
def MAXSTACK : Nat := 1024

/-- Modelled from the spec: STACK_LIMIT = 1024 bounds the evaluation stack. -/
def STACK_LIMIT : Nat := 1024

/-- The largest uint64 value, as used by the bound checks of
checkMemoryExpandAndChargeGas. -/
def UINT64MAX : Nat := 2 ^ 64 - 1

/-- Truncation of a uint256 to its low 64 bits (uint256ToUint64). -/
def uint256ToUint64 (v : Nat) : Nat := v % 2 ^ 64

/-- Interpretation of the low 64 bits of a uint256 as a two's-complement
int64_t, as in the static_cast of the popped gas argument of CALL. -/
def toInt64 (v : Nat) : Int :=
  let r : Nat := v % 2 ^ 64
  if r < 2 ^ 63 then (r : Int) else (r : Int) - 2 ^ 64

/-- Conversion of an int64 value to the uint64 argument of chargeGas. -/
def toUInt64Nat (v : Int) : Nat := (v % (2 ^ 64 : Int)).toNat

/-- One call frame: the fields of EVMFrame and of its inbound evmc_message
that the handlers under verification read or write. -/
structure EVMFrame where
  stack : List Nat
  mem : List Nat
  gas : Nat
  pc : Nat
  depth : Nat
  isStatic : Bool
  rev : Nat
  gasRefund : Nat
  inputData : List Nat
  inputSize : Nat
  recipient : Nat
  deriving DecidableEq

/-- The slice of the InterpreterExecContext a handler step can touch: the
status, the return-data buffer, and two observation flags recording whether
host.call was invoked and whether the handler freed the current frame. -/
structure EVMContext where
  status : Status
  returnData : List Nat
  hostCalled : Bool
  frameFreed : Bool
  deriving DecidableEq

/-- A context at the start of a handler step: running status, the current
return-data buffer, no host call performed and the frame still alive. -/
def EVMContext.init (rd : List Nat) : EVMContext :=
  { status := .running, returnData := rd, hostCalled := false, frameFreed := false }

/-- The Host responses a single CALL or CREATE handler step can consume.
Addresses are Nat values below 2^160. -/
structure Host where
  accessCold : Nat → Bool
  balance : Nat → Nat
  accountExists : Nat → Bool
  callStatus : Status
  callGasLeft : Int
  callGasRefund : Nat
  callOutput : List Nat
  callCreateAddress : Nat

/- ---------- gas and memory utilities (anonymous namespace of the source) ---------- -/

/-- Memory cost of a word count: new_words^2 / 512 + 3 * new_words, computed
in __int128 and truncated to uint64 on return (the __int128 intermediate never
overflows for word counts coming from uint64 byte sizes). -/
def memoryCostTrunc (words : Nat) : Nat :=
  (words * words / 512 + 3 * words) % 2 ^ 64

/-- calculateMemoryExpansionCost: zero when no expansion is needed, otherwise
the uint64 difference of the truncated word costs (uint64 subtraction wraps
modulo 2^64). -/
def calculateMemoryExpansionCost (currentSize newSize : Nat) : Nat :=
  if newSize ≤ currentSize then 0
  else
    (memoryCostTrunc ((newSize + 31) / 32) + 2 ^ 64 -
      memoryCostTrunc ((currentSize + 31) / 32)) % 2 ^ 64

/-- chargeGas: subtracts the cost or reports failure, leaving gas unchanged. -/
def chargeGas (f : EVMFrame) (cost : Nat) : Option EVMFrame :=
  if f.gas < cost then none else some { f with gas := f.gas - cost }

/-- A chargeGas call whose boolean result the source ignores (the CALL and
CREATE handlers after host.call): on failure the frame is left unchanged. -/
def chargeGasIgnore (f : EVMFrame) (cost : Nat) : EVMFrame :=
  if f.gas < cost then f else { f with gas := f.gas - cost }

/-- numWords: size in 32-byte words, rounded up. -/
def numWords (size : Nat) : Nat := (size + 31) / 32

/-- copyCodeAndChargeGas: charges WORD_COPY_COST per word of the copy. -/
def copyCodeAndChargeGas (f : EVMFrame) (size : Nat) : Option EVMFrame :=
  chargeGas f (numWords size * WORD_COPY_COST)

/-- Result of a memory expansion attempt: the updated frame, or the status of
the fault (EVMTooLargeRequiredMemory and IntegerOverflow surface through
EVM_REQUIRE; a false return is mapped to out-of-gas by every caller). -/
inductive ExpandResult where
  | ok (f : EVMFrame)
  | fail (e : Status)

/-- expandMemoryAndChargeGas: requires the size to stay within
MAX_REQUIRED_MEMORY_SIZE (carried here as the maxmem parameter, since the
numeric constant lives in a header outside src/), charges the expansion cost,
and zero-pads the memory to the new length. -/
def expandMem (maxmem : Nat) (f : EVMFrame) (requiredSize : Nat) : ExpandResult :=
  if maxmem < requiredSize then .fail .tooLargeMemory
  else
    let cost := calculateMemoryExpansionCost f.mem.length requiredSize
    if f.gas < cost then .fail .outOfGas
    else
      .ok { f with
            gas := f.gas - cost,
            mem := if f.mem.length < requiredSize then
                     f.mem ++ List.replicate (requiredSize - f.mem.length) 0
                   else f.mem }

/-- checkMemoryExpandAndChargeGas, overload with a uint64 size: bound-checks
the full uint256 offset, checks offset + size against UINT64_MAX, then
expands to offset + size. -/
def checkMemU64 (maxmem : Nat) (f : EVMFrame) (offset size : Nat) : ExpandResult :=
  if UINT64MAX < offset then .fail .tooLargeMemory
  else if ¬ offset < UINT64MAX - size then .fail .integerOverflow
  else expandMem maxmem f (offset + size)

/-- checkMemoryExpandAndChargeGas, overload with a uint256 size: a zero size
requires no memory at all; otherwise the size must fit a uint64 and the
uint64 overload decides. -/
def checkMemU256 (maxmem : Nat) (f : EVMFrame) (offset size : Nat) : ExpandResult :=
  if size = 0 then .ok f
  else if UINT64MAX < size then .fail .tooLargeMemory
  else checkMemU64 maxmem f offset size

/- ---------- byte-level helpers ---------- -/

/-- Big-endian bytes of a uint256 value (intx::be::store into 32 bytes). -/
def beBytes32 (v : Nat) : List Nat :=
  (List.range 32).map fun i => v / 256 ^ (31 - i) % 256

/-- Big-endian load of a byte list (intx::be::load). -/
def beLoad (bytes : List Nat) : Nat :=
  bytes.foldl (fun acc b => acc * 256 + b) 0

/-- Read 32 bytes of memory starting at an offset (the source only reads
inside the expanded region, so the default 0 is never used there). -/
def read32 (mem : List Nat) (off : Nat) : List Nat :=
  (List.range 32).map fun i => mem.getD (off + i) 0

/-- Overwrite mem[off .. off + bytes.length) with the given bytes (memcpy
into a region the caller has expanded). -/
def memStore (mem : List Nat) (off : Nat) (bytes : List Nat) : List Nat :=
  mem.take off ++ bytes ++ mem.drop (off + bytes.length)

/- ---------- opcode handlers ---------- -/

/-
Each handler step maps a frame and a context to their state after one
execution of the handler body.  Handlers that pop at least as many stack
entries as they push model Frame::push as plain consing: under the driver
invariant stack.length <= STACK_LIMIT the stack-overflow branch of push is
unreachable there.  PUSHn and DUPn grow the stack by one, so they carry the
stack-overflow check of Frame::push (modelled from the spec: push fails with
stack-overflow when the stack is full).
-/

/-- PopHandler::doExecute. -/
def popStep (f : EVMFrame) (c : EVMContext) : EVMFrame × EVMContext :=
  match f.stack with
  | _ :: rest => ({ f with stack := rest }, c)
  | [] => (f, { c with status := .stackUnderflow })

/-- PushHandler::doExecute for PUSH1..PUSH32: numBytes is the opcode byte
minus OP_PUSH1 plus one; reads numBytes code bytes after the pc, big-endian
and left-padded with zeroes, pushes the value and advances the pc by
numBytes (the driver adds the final +1 shared by every opcode). -/
def pushStep (code : List Nat) (numBytes : Nat) (f : EVMFrame) (c : EVMContext) :
    EVMFrame × EVMContext :=
  if ¬ f.pc + numBytes < code.length then (f, { c with status := .unexpectedEnd })
  else
    let v := ((List.range numBytes).map fun i => code.getD (f.pc + 1 + i) 0).foldl
      (fun acc b => acc * 256 + b) 0
    if STACK_LIMIT ≤ f.stack.length then (f, { c with status := .stackOverflow })
    else ({ f with stack := v :: f.stack, pc := f.pc + numBytes }, c)

/-- DupHandler::doExecute for DUP1..DUP16: n is the opcode byte minus OP_DUP1
plus one; requires n stack entries, then pushes a copy of the n-th from the
top. -/
def dupStep (n : Nat) (f : EVMFrame) (c : EVMContext) : EVMFrame × EVMContext :=
  if f.stack.length < n then (f, { c with status := .stackUnderflow })
  else if STACK_LIMIT ≤ f.stack.length then (f, { c with status := .stackOverflow })
  else ({ f with stack := f.stack.getD (n - 1) 0 :: f.stack }, c)

/-- SwapHandler::doExecute for SWAP1..SWAP16: n is the opcode byte minus
OP_SWAP1 plus one; requires n + 1 stack entries, then exchanges the top with
the entry n below it. -/
def swapStep (n : Nat) (f : EVMFrame) (c : EVMContext) : EVMFrame × EVMContext :=
  if f.stack.length < n + 1 then (f, { c with status := .stackUnderflow })
  else
    ({ f with stack := (f.stack.set 0 (f.stack.getD n 0)).set n (f.stack.getD 0 0) }, c)

/-- MLoadHandler::doExecute: truncates the popped offset to 64 bits, expands
to offset + 32 through the uint64 overload, and pushes the 32 bytes read
big-endian. -/
def mloadStep (maxmem : Nat) (f : EVMFrame) (c : EVMContext) : EVMFrame × EVMContext :=
  match f.stack with
  | offv :: rest =>
    let f0 := { f with stack := rest }
    let off := uint256ToUint64 offv
    match checkMemU64 maxmem f0 off 32 with
    | .fail e => (f0, { c with status := e })
    | .ok f1 => ({ f1 with stack := beLoad (read32 f1.mem off) :: f1.stack }, c)
  | _ => (f, { c with status := .stackUnderflow })

/-- MStoreHandler::doExecute: truncates the popped offset to 64 bits, expands
to offset + 32, and stores the 32 value bytes big-endian. -/
def mstoreStep (maxmem : Nat) (f : EVMFrame) (c : EVMContext) : EVMFrame × EVMContext :=
  match f.stack with
  | offv :: v :: rest =>
    let f0 := { f with stack := rest }
    let off := uint256ToUint64 offv
    match checkMemU64 maxmem f0 off 32 with
    | .fail e => (f0, { c with status := e })
    | .ok f1 => ({ f1 with mem := memStore f1.mem off (beBytes32 v) }, c)
  | _ => (f, { c with status := .stackUnderflow })

/-- MStore8Handler::doExecute: truncates the popped offset to 64 bits,
expands to offset + 1, and stores the low byte of the value. -/
def mstore8Step (maxmem : Nat) (f : EVMFrame) (c : EVMContext) : EVMFrame × EVMContext :=
  match f.stack with
  | offv :: v :: rest =>
    let f0 := { f with stack := rest }
    let off := uint256ToUint64 offv
    match checkMemU64 maxmem f0 off 1 with
    | .fail e => (f0, { c with status := e })
    | .ok f1 => ({ f1 with mem := memStore f1.mem off [v % 256] }, c)
  | _ => (f, { c with status := .stackUnderflow })

/-- CallDataCopyHandler::doExecute: bound-checks with the full uint256
destination offset and uint256 size (so a zero size skips everything),
truncates the three arguments to 64 bits, charges the word-copy gas, copies
the available input bytes and zero-fills the rest. -/
def callDataCopyStep (maxmem : Nat) (f : EVMFrame) (c : EVMContext) :
    EVMFrame × EVMContext :=
  match f.stack with
  | destOffv :: offv :: sizev :: rest =>
    let f0 := { f with stack := rest }
    match checkMemU256 maxmem f0 destOffv sizev with
    | .fail e => (f0, { c with status := e })
    | .ok f1 =>
      let destOff := uint256ToUint64 destOffv
      let off := uint256ToUint64 offv
      let size := uint256ToUint64 sizev
      let src := if f1.inputSize < off then f1.inputSize else off
      let copySize := min size (f1.inputSize - src)
      match copyCodeAndChargeGas f1 size with
      | none => (f1, { c with status := .outOfGas })
      | some f2 =>
        let data := (List.range size).map fun i =>
          if i < copySize then f2.inputData.getD (src + i) 0 else 0
        ({ f2 with mem := memStore f2.mem destOff data }, c)
  | _ => (f, { c with status := .stackUnderflow })

/-- ReturnHandler::doExecute: truncates offset and size to 64 bits, expands
through the uint64 overload (no zero-size shortcut), snapshots the memory
slice into the context return-data, sets success, frees the frame and credits
the parent with the remaining gas (the credit itself lives in the parent
frame, outside this step). -/
def returnStep (maxmem : Nat) (f : EVMFrame) (c : EVMContext) : EVMFrame × EVMContext :=
  match f.stack with
  | offv :: sizev :: rest =>
    let f0 := { f with stack := rest }
    let off := uint256ToUint64 offv
    let size := uint256ToUint64 sizev
    match checkMemU64 maxmem f0 off size with
    | .fail e => (f0, { c with status := e })
    | .ok f1 =>
      (f1,
        { c with
          status := .success
          returnData := (f1.mem.drop off).take size
          frameFreed := true })
  | _ => (f, { c with status := .stackUnderflow })

/-- RevertHandler::doExecute: same memory handling as RETURN, but sets the
revert status. -/
def revertStep (maxmem : Nat) (f : EVMFrame) (c : EVMContext) : EVMFrame × EVMContext :=
  match f.stack with
  | offv :: sizev :: rest =>
    let f0 := { f with stack := rest }
    let off := uint256ToUint64 offv
    let size := uint256ToUint64 sizev
    match checkMemU64 maxmem f0 off size with
    | .fail e => (f0, { c with status := e })
    | .ok f1 =>
      (f1,
        { c with
          status := .reverted
          returnData := (f1.mem.drop off).take size
          frameFreed := true })
  | _ => (f, { c with status := .stackUnderflow })

/-- LogHandler::doExecute for LOG0..LOG4: numTopics is the opcode byte minus
OP_LOG0.  Forbidden in static mode; requires numTopics + 2 stack entries;
computes the required size as the uint64 sum offset + size (wrapping modulo
2^64, with no integer-overflow check), expands directly, charges 8 gas per
byte, pops the topics and emits the log through the host. -/
def logStep (numTopics maxmem : Nat) (f : EVMFrame) (c : EVMContext) :
    EVMFrame × EVMContext :=
  if f.isStatic then (f, { c with status := .staticModeViolation })
  else if f.stack.length < numTopics + 2 then (f, { c with status := .stackUnderflow })
  else
    match f.stack with
    | offv :: sizev :: rest =>
      let f0 := { f with stack := rest }
      let off := uint256ToUint64 offv
      let size := uint256ToUint64 sizev
      let reqSize := (off + size) % 2 ^ 64
      match expandMem maxmem f0 reqSize with
      | .fail e => (f0, { c with status := e })
      | .ok f1 =>
        match chargeGas f1 (8 * size % 2 ^ 64) with
        | none => (f1, { c with status := .outOfGas })
        | some f2 => ({ f2 with stack := f2.stack.drop numTopics }, c)
    | _ => (f, { c with status := .stackUnderflow })

/- ---------- CALL and CREATE families ---------- -/

/-- The four opcodes served by CallHandler. -/
inductive OpCall where
  | call
  | callcode
  | delegatecall
  | staticcall
  deriving DecidableEq

/-- NeedValue: CALL and CALLCODE pop a value argument. -/
def needValue : OpCall → Bool
  | .call => true
  | .callcode => true
  | _ => false

/-- The stack arguments of one CALL-family execution, and the stack below
them. -/
structure CallArgs where
  gasReq : Nat
  dest : Nat
  value : Nat
  inOff : Nat
  inSize : Nat
  outOff : Nat
  outSize : Nat
  rest : List Nat
  deriving DecidableEq

/-- The pops at the head of CallHandler::doExecute: seven arguments for
CALL/CALLCODE, six for DELEGATECALL/STATICCALL (whose value is the literal
0), or the stack-arity failure. -/
def popCallArgs (op : OpCall) (stack : List Nat) : Option CallArgs :=
  if needValue op then
    match stack with
    | g :: d :: v :: a :: b :: e :: o :: rest =>
      some ⟨g, d, v, a, b, e, o, rest⟩
    | _ => none
  else
    match stack with
    | g :: d :: a :: b :: e :: o :: rest =>
      some ⟨g, d, 0, a, b, e, o, rest⟩
    | _ => none

/-- The EIP-2929 account-access charge of CallHandler: the cold cost on a
Berlin+ cold account, the warm cost otherwise. -/
def callAccessCost (h : Host) (f : EVMFrame) (dest : Nat) : Nat :=
  if EVMC_BERLIN ≤ f.rev ∧ h.accessCold (dest % 2 ^ 160) then COLD_ACCOUNT_ACCESS_COST
  else WARM_ACCOUNT_ACCESS_COST

/-- CallHandler::doExecute for CALL/CALLCODE/DELEGATECALL/STATICCALL,
following the source order: pop the arguments, push the assumed-failure 0 and
clear the return-data, charge the EIP-2929 access cost, take the light
failure on depth or balance, expand memory for the input and output ranges,
clamp the forwarded gas (EIP-150), charge CALL_VALUE_COST and the
account-creation cost, add the stipend, invoke host.call and settle the
result. -/
def callStep (maxmem : Nat) (h : Host) (op : OpCall) (f : EVMFrame) (c : EVMContext) :
    EVMFrame × EVMContext :=
  match popCallArgs op f.stack with
  | none => (f, { c with status := .stackUnderflow })
  | some a =>
    let dest := a.dest % 2 ^ 160
    let f0 := { f with stack := 0 :: a.rest }
    let c0 := { c with returnData := [] }
    match chargeGas f0 (callAccessCost h f0 a.dest) with
    | none => (f0, { c0 with status := .outOfGas })
    | some f1 =>
      if MAXSTACK ≤ f1.depth then (f1, { c0 with status := .success })
      else if needValue op ∧ h.balance f1.recipient < a.value then
        (f1, { c0 with status := .success })
      else
        match expandMem maxmem f1 (uint256ToUint64 ((a.inOff + a.inSize) % 2 ^ 256)) with
        | .fail e => (f1, { c0 with status := e })
        | .ok f2 =>
          match expandMem maxmem f2 (uint256ToUint64 ((a.outOff + a.outSize) % 2 ^ 256)) with
          | .fail e => (f2, { c0 with status := e })
          | .ok f3 =>
            let subGasOpt : Option Int :=
              if EVMC_TANGERINE_WHISTLE ≤ f3.rev then
                some (min (toInt64 a.gasReq) ((f3.gas - f3.gas / 64 : Nat) : Int))
              else if toInt64 a.gasReq > (f3.gas : Int) then none
              else some (toInt64 a.gasReq)
            match subGasOpt with
            | none => (f3, { c0 with status := .outOfGas })
            | some subGas0 =>
              if op = .call ∧ f3.isStatic then
                (f3, { c0 with status := .staticModeViolation })
              else
                let cost := (if needValue op then CALL_VALUE_COST else 0) +
                  (if op = .call ∧ ¬ h.accountExists dest then ACCOUNT_CREATION_COST
                   else 0)
                match chargeGas f3 cost with
                | none =>
                  ({ f3 with stack := 0 :: f3.stack }, { c0 with status := .outOfGas })
                | some f4 =>
                  let subGas := if needValue op then subGas0 + CALL_GAS_STIPEND
                                else subGas0
                  let f5 := if h.callStatus = .success then
                              { f4 with stack := 1 :: f4.stack.tail }
                            else f4
                  let copySize := min (uint256ToUint64 a.outSize) h.callOutput.length
                  let f6 := { f5 with
                              mem := memStore f5.mem (uint256ToUint64 a.outOff)
                                (h.callOutput.take copySize) }
                  let f7 := chargeGasIgnore f6 (toUInt64Nat (subGas - h.callGasLeft))
                  let f8 := { f7 with gasRefund := f7.gasRefund + h.callGasRefund }
                  (f8,
                    { c0 with
                      status := h.callStatus
                      returnData := h.callOutput
                      hostCalled := true })

/-- The two opcodes served by CreateHandler. -/
inductive OpCreate where
  | create
  | create2
  deriving DecidableEq

/-- The stack arguments of one CREATE-family execution (salt is 0 for
CREATE), and the stack below them. -/
structure CreateArgs where
  value : Nat
  codeOff : Nat
  codeSize : Nat
  salt : Nat
  rest : List Nat
  deriving DecidableEq

/-- The pops at the head of CreateHandler::doExecute: three arguments for
CREATE, four for CREATE2, or the stack-arity failure. -/
def popCreateArgs (op : OpCreate) (stack : List Nat) : Option CreateArgs :=
  match op, stack with
  | .create, v :: co :: cs :: rest => some ⟨v, co, cs, 0, rest⟩
  | .create2, v :: co :: cs :: salt :: rest => some ⟨v, co, cs, salt, rest⟩
  | _, _ => none

/-- The EIP-3860 initcode charge of CreateHandler: the word cost is
6 for CREATE2 plus 2 from Shanghai on, and the word count comes from the
uint256 rounding (codeSize + 31) / 32 truncated to 64 bits; the uint64
product wraps modulo 2^64. -/
def createInitCost (op : OpCreate) (rev codeSize : Nat) : Nat :=
  ((6 * (if op = .create2 then 1 else 0) + 2 * (if EVMC_SHANGHAI ≤ rev then 1 else 0)) *
    uint256ToUint64 ((codeSize + 31) % 2 ^ 256 / 32)) % 2 ^ 64

/-- CreateHandler::doExecute for CREATE/CREATE2, following the source order:
pop the arguments, push the assumed-failure 0 and clear the return-data,
reject static mode, apply the EIP-3860 size limit and initcode charge, take
the light failure on depth or balance, expand memory to the initcode range,
forward the EIP-150 clamped gas to host.call and settle the result. -/
def createStep (maxmem : Nat) (h : Host) (op : OpCreate) (f : EVMFrame)
    (c : EVMContext) : EVMFrame × EVMContext :=
  match popCreateArgs op f.stack with
  | none => (f, { c with status := .stackUnderflow })
  | some a =>
    let f0 := { f with stack := 0 :: a.rest }
    let c0 := { c with returnData := [] }
    if f0.isStatic then (f0, { c0 with status := .staticModeViolation })
    else if EVMC_SHANGHAI ≤ f0.rev ∧ MAX_SIZE_OF_INITCODE < a.codeSize then
      (f0, { c0 with status := .outOfGas })
    else
      match chargeGas f0 (createInitCost op f0.rev a.codeSize) with
      | none => (f0, { c0 with status := .outOfGas })
      | some f1 =>
        if MAXSTACK ≤ f1.depth then (f1, { c0 with status := .success })
        else if h.balance f1.recipient < a.value then
          (f1, { c0 with status := .success })
        else
          match expandMem maxmem f1 (uint256ToUint64 ((a.codeOff + a.codeSize) % 2 ^ 256)) with
          | .fail e => (f1, { c0 with status := e })
          | .ok f2 =>
            let subGas : Int :=
              if EVMC_TANGERINE_WHISTLE ≤ f2.rev then
                (f2.gas : Int) - ((f2.gas / 64 : Nat) : Int)
              else (f2.gas : Int)
            let f3 := chargeGasIgnore f2 (toUInt64Nat (subGas - h.callGasLeft))
            let f4 := { f3 with gasRefund := f3.gasRefund + h.callGasRefund }
            let f5 := if h.callStatus = .success then
                        { f4 with stack := h.callCreateAddress :: f4.stack.tail }
                      else f4
            (f5,
              { c0 with
                status := h.callStatus
                returnData := h.callOutput
                hostCalled := true })

/- ---------- EXP gas ---------- -/

/-- The gas the handler layer charges for EXP: ExpHandler::calculateGas is
the DEFINE_CALCULATE_GAS macro, which returns the static evmc
instruction-metrics entry for OP_EXP (10 gas) and nothing else; no dynamic
per-byte charge exists in the handler. -/
def expCalculateGas : Nat := 10

/-- Byte length of an exponent below 2^256: the number of powers of 256 not
exceeding it. -/
def exponentByteLength (e : Nat) : Nat :=
  ((List.range 32).filter fun k => 256 ^ k ≤ e).length

/-- Modelled from the spec: EXP gas = static cost plus 50 gas per byte of the
exponent from Spurious Dragon on, 10 per byte earlier. -/
def specExpGas (rev exponent : Nat) : Nat :=
  expCalculateGas +
    (if EVMC_SPURIOUS_DRAGON ≤ rev then 50 else 10) * exponentByteLength exponent

/- ---------- spec-side memory cost (for the claim on the expansion formula) ---------- -/

/-- The exact cost function of the spec: C(w) = w^2 / 512 + 3w with integer
division and no truncation. -/
def memoryCostSpec (words : Nat) : Nat := words * words / 512 + 3 * words

/-- Modelled from the spec: the static evmc metrics-table costs of PUSHn
(3 gas) and POP (2 gas) charged by the driver before each handler runs. -/
def pushCalculateGas : Nat := 3

/-- Static cost of POP from the evmc metrics table. -/
def popCalculateGas : Nat := 2

/- ---------- concrete inputs used by the evaluation theorems ---------- -/

/-- A frame with empty stack and memory, used as the base of the concrete
evaluations. -/
def baseFrame : EVMFrame :=
  { stack := [], mem := [], gas := 0, pc := 0, depth := 0, isStatic := false,
    rev := EVMC_CANCUN, gasRefund := 0, inputData := [], inputSize := 0, recipient := 0 }

/-- A host whose accounts are warm and existing, with zero balances, and whose
call result is success with the full forwarded gas returned (2300, the
stipend of a value-bearing CALL whose requested gas is 0). -/
def hostA : Host :=
  { accessCold := fun _ => false, balance := fun _ => 0, accountExists := fun _ => true,
    callStatus := .success, callGasLeft := 2300, callGasRefund := 0, callOutput := [],
    callCreateAddress := 7 }

/-- The same host with a call result returning gas_left = 0 (the forwarded
gas of a DELEGATECALL requesting 0). -/
def hostB : Host := { hostA with callGasLeft := 0 }

/-- A Berlin frame about to execute CALL with requested gas 0, destination 1,
value 0, empty input and output ranges, and 9099 gas: enough for the warm
access charge (100) but not for the 9000 CALL_VALUE_COST that follows. -/
def frameCallCostOOG : EVMFrame :=
  { baseFrame with stack := [0, 1, 0, 0, 0, 0, 0], gas := 9099, rev := EVMC_BERLIN }

/-- A Berlin frame about to execute CALL with value 0 and ample gas. -/
def frameCallValueZero : EVMFrame :=
  { baseFrame with stack := [0, 1, 0, 0, 0, 0, 0], gas := 1000000, rev := EVMC_BERLIN }

/-- A Berlin frame about to execute DELEGATECALL with ample gas. -/
def frameDelegate : EVMFrame :=
  { baseFrame with stack := [0, 1, 0, 0, 0, 0], gas := 1000000, rev := EVMC_BERLIN }

/-- A frame about to execute CALLDATACOPY with destination offset 64 and
size 0. -/
def frameCopyZero : EVMFrame := { baseFrame with stack := [64, 0, 0], gas := 100 }

/-- A frame about to execute RETURN with offset 64 and size 0. -/
def frameReturnZero : EVMFrame := { baseFrame with stack := [64, 0], gas := 100 }

/-- A Berlin frame at the depth limit about to execute CALL. -/
def frameCallDepth : EVMFrame :=
  { baseFrame with
    stack := [0, 1, 0, 0, 0, 0, 0]
    gas := 1000
    depth := 1024
    rev := EVMC_BERLIN }

/-- A frame at the depth limit about to execute CREATE. -/
def frameCreateDepth : EVMFrame :=
  { baseFrame with stack := [0, 0, 0], gas := 100, depth := 1024 }

/-- A frame whose LOG or RETURN arguments are offset 2^64 - 8 and size 8, so
that the 64-bit sum offset + size wraps to 0. -/
def frameWrap : EVMFrame := { baseFrame with stack := [2 ^ 64 - 8, 8], gas := 100 }

/- ---------- helper lemmas ---------- -/

/-- Word counts are monotone in the byte size. -/
theorem numWords_mono {a b : Nat} (h : a ≤ b) : (a + 31) / 32 ≤ (b + 31) / 32 :=
  Nat.div_le_div_right (by omega)

/-- The exact memory cost is monotone in the word count. -/
theorem memoryCostSpec_mono {a b : Nat} (h : a ≤ b) :
    memoryCostSpec a ≤ memoryCostSpec b :=
  Nat.add_le_add (Nat.div_le_div_right (Nat.mul_le_mul h h)) (Nat.mul_le_mul_left 3 h)

/-- Below 2^36 words the exact memory cost fits a uint64. -/
theorem memoryCostSpec_lt {w : Nat} (h : w ≤ 2 ^ 36) : memoryCostSpec w < 2 ^ 64 := by
  have h1 : w * w / 512 ≤ 2 ^ 36 * 2 ^ 36 / 512 := Nat.div_le_div_right (Nat.mul_le_mul h h)
  have h2 : (2 : Nat) ^ 36 * 2 ^ 36 / 512 = 2 ^ 63 := by norm_num
  have h3 : (2 : Nat) ^ 63 + 3 * 2 ^ 36 < 2 ^ 64 := by norm_num
  unfold memoryCostSpec
  omega

/-- Below 2^36 words the truncated memory cost is the exact one. -/
theorem memoryCostTrunc_eq {w : Nat} (h : w ≤ 2 ^ 36) :
    memoryCostTrunc w = memoryCostSpec w :=
  Nat.mod_eq_of_lt (memoryCostSpec_lt h)

/-- Byte sizes up to 2^41 stay below 2^36 words. -/
theorem numWords_le {n : Nat} (h : n ≤ 2 ^ 41) : (n + 31) / 32 ≤ 2 ^ 36 := by
  have h1 : (n + 31) / 32 ≤ (2 ^ 41 + 31) / 32 := Nat.div_le_div_right (by omega)
  have h2 : ((2 : Nat) ^ 41 + 31) / 32 = 2 ^ 36 := by norm_num
  omega

/-- For sizes up to 2^41 the truncating source cost coincides with the exact
difference of the spec cost function. -/
theorem calcCost_eq_spec (c n : Nat) (hn : n ≤ 2 ^ 41) :
    calculateMemoryExpansionCost c n =
      if n ≤ c then 0
      else memoryCostSpec ((n + 31) / 32) - memoryCostSpec ((c + 31) / 32) := by
  unfold calculateMemoryExpansionCost
  by_cases hc : n ≤ c
  · simp [hc]
  · have hcn : c ≤ n := by omega
    have hwn : (n + 31) / 32 ≤ 2 ^ 36 := numWords_le hn
    have hwc : (c + 31) / 32 ≤ 2 ^ 36 := le_trans (numWords_mono hcn) hwn
    rw [if_neg hc, if_neg hc, memoryCostTrunc_eq hwn, memoryCostTrunc_eq hwc]
    have h1 : memoryCostSpec ((c + 31) / 32) ≤ memoryCostSpec ((n + 31) / 32) :=
      memoryCostSpec_mono (numWords_mono hcn)
    have h2 : memoryCostSpec ((n + 31) / 32) < 2 ^ 64 := memoryCostSpec_lt hwn
    omega

/-- A failed expansion reports too-large-memory or out-of-gas, never the
integer-overflow status. -/
theorem expandMem_fail {m : Nat} {f : EVMFrame} {r : Nat} {e : Status}
    (h : expandMem m f r = .fail e) : e = .tooLargeMemory ∨ e = .outOfGas := by
  simp only [expandMem] at h
  split at h
  · left; cases h; rfl
  · split at h
    · right; cases h; rfl
    · cases h

/-- A chargeGas call whose cost fits the gas returns the frame with the cost
subtracted. -/
theorem chargeGas_eq_some {f : EVMFrame} {cost : Nat} (h : cost ≤ f.gas) :
    chargeGas f cost = some { f with gas := f.gas - cost } := by
  unfold chargeGas
  rw [if_neg (Nat.not_lt.mpr h)]

/- ---------- claim theorems ---------- -/

/-- C1: the claim states that a CALL-family handler pushes the assumed-failure
0 exactly once, so that an out-of-gas exit at the value-transfer or
account-creation cost charge leaves one 0 on the stack.  The source pushes a
second 0 inside that out-of-gas branch: on a concrete CALL with value 0,
warm existing destination and 9099 gas (enough for the access charge, not for
CALL_VALUE_COST), the handler halts out-of-gas with two zeroes on the
stack. -/
theorem c1_call_pushes_assumed_zero_twice_on_cost_oog :
    (callStep (2 ^ 32) hostA .call frameCallCostOOG (.init [])).1.stack = [0, 0] ∧
    (callStep (2 ^ 32) hostA .call frameCallCostOOG (.init [])).2.status = .outOfGas := by
  decide

/-- C2: the claim states that CALL_VALUE_COST is charged exactly when the
popped value is nonzero.  The source keys the charge on the opcode kind
(NeedValue), so a CALL whose popped value is 0 still pays 9000: starting from
1000000 gas it ends with 1000000 - 100 - 9000 after the warm access charge,
while a DELEGATECALL pays only the access charge, ending with 1000000 -
100. -/
theorem c2_call_value_cost_keyed_on_opcode_not_value :
    (callStep (2 ^ 32) hostA .call frameCallValueZero (.init [])).1.gas =
      1000000 - WARM_ACCOUNT_ACCESS_COST - CALL_VALUE_COST ∧
    (callStep (2 ^ 32) hostB .delegatecall frameDelegate (.init [])).1.gas =
      1000000 - WARM_ACCOUNT_ACCESS_COST := by
  decide

/-- C3: the claim states that EXP charges the static cost plus 50 gas per
exponent byte (Spurious Dragon on).  The handler charges only the static
metrics-table entry: for exponent 256 (two bytes) the spec cost is 110 while
the handler charges 10. -/
theorem c3_exp_charges_static_cost_only :
    expCalculateGas = 10 ∧ specExpGas EVMC_CANCUN 256 = 110 ∧
    expCalculateGas ≠ specExpGas EVMC_CANCUN 256 := by
  decide

/-- C4: the claim states that a zero popped size never expands memory or
charges expansion gas.  That holds for the copy opcodes, whose bound check
goes through the uint256-size overload with the zero-size shortcut
(CALLDATACOPY at destination 64 with size 0 leaves memory and gas untouched),
but RETURN routes the already-truncated offset through the uint64 overload,
which has no shortcut: RETURN with offset 64 and size 0 expands memory to 64
bytes and charges 6 gas of expansion. -/
theorem c4_zero_size_copy_vs_return_expansion :
    callDataCopyStep (2 ^ 32) frameCopyZero (.init []) =
      ({ frameCopyZero with stack := [] }, .init []) ∧
    returnStep (2 ^ 32) frameReturnZero (.init []) =
      ({ frameReturnZero with stack := [], gas := 94, mem := List.replicate 64 0 },
       { EVMContext.init [] with status := .success, frameFreed := true }) := by
  decide

/-- C5, counterexample: the claim asserts the exact formula and monotonicity
for every current and required size, but the source computes the cost in
truncating 64-bit arithmetic: growing the request from 2^41 to 2^42 bytes
makes the charged cost drop (the truncated word cost wraps), and at 2^42 the
charged cost differs from the exact formula. -/
theorem c5_trunc_breaks_formula_and_monotonicity :
    calculateMemoryExpansionCost 0 (2 ^ 42) < calculateMemoryExpansionCost 0 (2 ^ 41) ∧
    calculateMemoryExpansionCost 0 (2 ^ 42) ≠
      memoryCostSpec ((2 ^ 42 + 31) / 32) - memoryCostSpec ((0 + 31) / 32) := by
  decide

/-- C5, amended: for every current size c and required size n up to 2^41
bytes (where the truncated word cost still fits a uint64), the charged
expansion cost equals C((n + 31) / 32) - C((c + 31) / 32) with
C(w) = w^2 / 512 + 3w in exact integer arithmetic (0 when n does not exceed
c), and the cost is monotone non-decreasing in n on that range. -/
theorem c5_expansion_cost_exact_and_monotone_below_2pow41 :
    ∀ c n : Nat, n ≤ 2 ^ 41 →
      (calculateMemoryExpansionCost c n =
        if n ≤ c then 0
        else memoryCostSpec ((n + 31) / 32) - memoryCostSpec ((c + 31) / 32)) ∧
      ∀ n2, n ≤ n2 → n2 ≤ 2 ^ 41 →
        calculateMemoryExpansionCost c n ≤ calculateMemoryExpansionCost c n2 := by
  intro c n hn
  refine ⟨calcCost_eq_spec c n hn, ?_⟩
  intro n2 h12 h2
  rw [calcCost_eq_spec c n hn, calcCost_eq_spec c n2 h2]
  by_cases hc1 : n ≤ c
  · simp only [if_pos hc1]
    exact Nat.zero_le _
  · have hc2 : ¬ n2 ≤ c := by omega
    rw [if_neg hc1, if_neg hc2]
    exact Nat.sub_le_sub_right (memoryCostSpec_mono (numWords_mono (by omega))) _

/-- C5, witness: the amended statement evaluated at c = 0 with n = 32 and
n2 = 64. -/
theorem c5_expansion_witness :
    (64 : Nat) ≤ 2 ^ 41 ∧
    (calculateMemoryExpansionCost 0 64 =
      if (64 : Nat) ≤ 0 then 0
      else memoryCostSpec ((64 + 31) / 32) - memoryCostSpec ((0 + 31) / 32)) ∧
    calculateMemoryExpansionCost 0 32 ≤ calculateMemoryExpansionCost 0 64 :=
  ⟨by decide,
   (c5_expansion_cost_exact_and_monotone_below_2pow41 0 64 (by decide)).1,
   (c5_expansion_cost_exact_and_monotone_below_2pow41 0 32 (by decide)).2 64
     (by decide) (by decide)⟩

/-- C6: when a CALL-family handler reaches the depth/balance checks (the pops
succeeded and the access charge fit the gas) with depth at the limit or an
insufficient balance for a transferred value, and when a CREATE-family
handler reaches them (not static, initcode size admitted and initcode charge
fit) likewise, the handler takes the light failure: the status becomes
success, the assumed-failure 0 stays on top of the stack, and host.call is
never invoked. -/
theorem c6_light_failure_keeps_zero_and_skips_host_call :
    (∀ (maxmem : Nat) (h : Host) (op : OpCall) (f : EVMFrame) (rd : List Nat)
        (a : CallArgs),
        popCallArgs op f.stack = some a →
        callAccessCost h f a.dest ≤ f.gas →
        (MAXSTACK ≤ f.depth ∨ (needValue op = true ∧ h.balance f.recipient < a.value)) →
        callStep maxmem h op f (.init rd) =
          ({ f with stack := 0 :: a.rest, gas := f.gas - callAccessCost h f a.dest },
           { status := .success, returnData := [], hostCalled := false,
             frameFreed := false })) ∧
    (∀ (maxmem : Nat) (h : Host) (op : OpCreate) (f : EVMFrame) (rd : List Nat)
        (a : CreateArgs),
        popCreateArgs op f.stack = some a →
        f.isStatic = false →
        (EVMC_SHANGHAI ≤ f.rev → a.codeSize ≤ MAX_SIZE_OF_INITCODE) →
        createInitCost op f.rev a.codeSize ≤ f.gas →
        (MAXSTACK ≤ f.depth ∨ h.balance f.recipient < a.value) →
        createStep maxmem h op f (.init rd) =
          ({ f with
             stack := 0 :: a.rest
             gas := f.gas - createInitCost op f.rev a.codeSize },
           { status := .success, returnData := [], hostCalled := false,
             frameFreed := false })) := by
  constructor
  · intro maxmem h op f rd a hpop hacc hlight
    simp only [callStep, hpop]
    rw [@chargeGas_eq_some { f with stack := 0 :: a.rest }
      (callAccessCost h { f with stack := 0 :: a.rest } a.dest) hacc]
    by_cases hd : MAXSTACK ≤ f.depth
    · simp only [EVMContext.init]
      rw [if_pos hd]
      rfl
    · rcases hlight.resolve_left hd with ⟨hnv, hbal⟩
      simp only [EVMContext.init]
      rw [if_neg hd,
        if_pos (⟨hnv, hbal⟩ : needValue op = true ∧ h.balance f.recipient < a.value)]
      rfl
  · intro maxmem h op f rd a hpop hstat hsz hcost hlight
    simp only [createStep, hpop]
    rw [if_neg (by simp [hstat])]
    rw [if_neg (show ¬ (EVMC_SHANGHAI ≤ ({ f with stack := 0 :: a.rest } : EVMFrame).rev ∧
        MAX_SIZE_OF_INITCODE < a.codeSize) by
      rintro ⟨hr, hs2⟩
      exact absurd (hsz hr) (Nat.not_le.mpr hs2))]
    rw [@chargeGas_eq_some { f with stack := 0 :: a.rest }
      (createInitCost op ({ f with stack := 0 :: a.rest } : EVMFrame).rev a.codeSize) hcost]
    by_cases hd : MAXSTACK ≤ f.depth
    · simp only [EVMContext.init]
      rw [if_pos hd]
    · have hbal := hlight.resolve_left hd
      simp only [EVMContext.init]
      rw [if_neg hd, if_pos hbal]

/-- C6, witness: the CALL conjunct at a depth-1024 Berlin frame with a warm
host, and the CREATE conjunct at a depth-1024 frame. -/
theorem c6_light_failure_witness :
    (popCallArgs .call frameCallDepth.stack = some ⟨0, 1, 0, 0, 0, 0, 0, []⟩ ∧
     callAccessCost hostA frameCallDepth 1 ≤ frameCallDepth.gas ∧
     MAXSTACK ≤ frameCallDepth.depth ∧
     callStep (2 ^ 32) hostA .call frameCallDepth (.init []) =
       ({ frameCallDepth with stack := [0], gas := 900 },
        { status := .success, returnData := [], hostCalled := false,
          frameFreed := false })) ∧
    (popCreateArgs .create frameCreateDepth.stack = some ⟨0, 0, 0, 0, []⟩ ∧
     MAXSTACK ≤ frameCreateDepth.depth ∧
     createStep (2 ^ 32) hostA .create frameCreateDepth (.init []) =
       ({ frameCreateDepth with stack := [0], gas := 100 },
        { status := .success, returnData := [], hostCalled := false,
          frameFreed := false })) := by
  refine ⟨⟨by decide, by decide, by decide, ?_⟩, ⟨by decide, by decide, ?_⟩⟩
  · exact (c6_light_failure_keeps_zero_and_skips_host_call.1 (2 ^ 32) hostA .call
      frameCallDepth [] ⟨0, 1, 0, 0, 0, 0, 0, []⟩ (by decide) (by decide)
      (Or.inl (by decide))).trans (by decide)
  · exact (c6_light_failure_keeps_zero_and_skips_host_call.2 (2 ^ 32) hostA .create
      frameCreateDepth [] ⟨0, 0, 0, 0, []⟩ (by decide) (by decide) (by decide)
      (by decide) (Or.inl (by decide))).trans (by decide)

/-- C7: a DUPn on a stack shorter than n, and a SWAPn on a stack shorter than
n + 1, raise the stack-underflow fault (the UnexpectedNumArgs error of the
source, surfaced as the stack-underflow status). -/
theorem c7_dup_swap_stack_underflow :
    (∀ (n : Nat) (f : EVMFrame) (rd : List Nat), 1 ≤ n → n ≤ 16 →
        f.stack.length < n →
        (dupStep n f (.init rd)).2.status = .stackUnderflow) ∧
    (∀ (n : Nat) (f : EVMFrame) (rd : List Nat), 1 ≤ n → n ≤ 16 →
        f.stack.length < n + 1 →
        (swapStep n f (.init rd)).2.status = .stackUnderflow) := by
  constructor
  · intro n f rd _ _ hlen
    simp [dupStep, hlen]
  · intro n f rd _ _ hlen
    simp [swapStep, hlen]

/-- C7, witness: DUP2 and SWAP2 on an empty stack. -/
theorem c7_underflow_witness :
    ((1 : Nat) ≤ 2 ∧ (2 : Nat) ≤ 16 ∧ baseFrame.stack.length < 2 ∧
     (dupStep 2 baseFrame (.init [])).2.status = .stackUnderflow) ∧
    (baseFrame.stack.length < 2 + 1 ∧
     (swapStep 2 baseFrame (.init [])).2.status = .stackUnderflow) :=
  ⟨⟨by decide, by decide, by decide,
    c7_dup_swap_stack_underflow.1 2 baseFrame [] (by decide) (by decide) (by decide)⟩,
   ⟨by decide,
    c7_dup_swap_stack_underflow.2 2 baseFrame [] (by decide) (by decide) (by decide)⟩⟩

/-- C8: on a frame whose pc + n stays inside the code and whose stack is
below STACK_LIMIT, PUSHn followed by POP restores the stack exactly, the
PUSH handler advances the pc by n (the driver adds one more per opcode), and
the two static costs are 3 + 2 gas. -/
theorem c8_push_then_pop_restores_stack :
    ∀ (code : List Nat) (n : Nat) (f : EVMFrame) (rd : List Nat),
      1 ≤ n → n ≤ 32 → f.pc + n < code.length → f.stack.length < STACK_LIMIT →
      popStep (pushStep code n f (.init rd)).1 (pushStep code n f (.init rd)).2 =
        ({ f with pc := f.pc + n }, .init rd) ∧
      pushCalculateGas + popCalculateGas = 3 + 2 := by
  intro code n f rd _ _ h3 h4
  have h4b : ¬ STACK_LIMIT ≤ f.stack.length := Nat.not_le.mpr h4
  refine ⟨?_, rfl⟩
  simp [pushStep, popStep, h3, h4b]

/-- C8, witness: PUSH1 of the byte 7 followed by POP on code 60 07 00. -/
theorem c8_push_pop_witness :
    ((1 : Nat) ≤ 1 ∧ (1 : Nat) ≤ 32 ∧ baseFrame.pc + 1 < [96, 7, 0].length ∧
     baseFrame.stack.length < STACK_LIMIT) ∧
    (popStep (pushStep [96, 7, 0] 1 baseFrame (.init [])).1
        (pushStep [96, 7, 0] 1 baseFrame (.init [])).2 =
      ({ baseFrame with pc := baseFrame.pc + 1 }, .init []) ∧
     pushCalculateGas + popCalculateGas = 3 + 2) :=
  ⟨⟨by decide, by decide, by decide, by decide⟩,
   c8_push_then_pop_restores_stack [96, 7, 0] 1 baseFrame [] (by decide) (by decide)
     (by decide) (by decide)⟩

/-- C9: MLOAD, MSTORE, MSTORE8, RETURN and REVERT truncate the popped offset
to its low 64 bits before any bound check, so each behaves on an offset
exactly as on offset mod 2^64 (expanding to and accessing that low address);
the copy opcodes instead pass the full 256-bit destination offset to the
uint256 bound check, and CALLDATACOPY with destination offset 2^64 and a
nonzero size halts with too-large-memory. -/
theorem c9_offset_truncated_mod_2pow64 :
    (∀ (m : Nat) (f : EVMFrame) (c : EVMContext) (off v : Nat) (rest : List Nat),
      mstoreStep m { f with stack := off :: v :: rest } c =
        mstoreStep m { f with stack := off % 2 ^ 64 :: v :: rest } c) ∧
    (∀ (m : Nat) (f : EVMFrame) (c : EVMContext) (off v : Nat) (rest : List Nat),
      mstore8Step m { f with stack := off :: v :: rest } c =
        mstore8Step m { f with stack := off % 2 ^ 64 :: v :: rest } c) ∧
    (∀ (m : Nat) (f : EVMFrame) (c : EVMContext) (off : Nat) (rest : List Nat),
      mloadStep m { f with stack := off :: rest } c =
        mloadStep m { f with stack := off % 2 ^ 64 :: rest } c) ∧
    (∀ (m : Nat) (f : EVMFrame) (c : EVMContext) (off sz : Nat) (rest : List Nat),
      returnStep m { f with stack := off :: sz :: rest } c =
        returnStep m { f with stack := off % 2 ^ 64 :: sz :: rest } c) ∧
    (∀ (m : Nat) (f : EVMFrame) (c : EVMContext) (off sz : Nat) (rest : List Nat),
      revertStep m { f with stack := off :: sz :: rest } c =
        revertStep m { f with stack := off % 2 ^ 64 :: sz :: rest } c) ∧
    (∀ (m : Nat) (f : EVMFrame) (rd : List Nat) (off2 : Nat) (rest : List Nat),
      (callDataCopyStep m { f with stack := 2 ^ 64 :: off2 :: 1 :: rest }
          (.init rd)).2.status = .tooLargeMemory) := by
  refine ⟨?_, ?_, ?_, ?_, ?_, ?_⟩
  · intro m f c off v rest
    have hmm : off % 2 ^ 64 % 2 ^ 64 = off % 2 ^ 64 := Nat.mod_mod_of_dvd off dvd_rfl
    simp only [mstoreStep, uint256ToUint64, hmm]
  · intro m f c off v rest
    have hmm : off % 2 ^ 64 % 2 ^ 64 = off % 2 ^ 64 := Nat.mod_mod_of_dvd off dvd_rfl
    simp only [mstore8Step, uint256ToUint64, hmm]
  · intro m f c off rest
    have hmm : off % 2 ^ 64 % 2 ^ 64 = off % 2 ^ 64 := Nat.mod_mod_of_dvd off dvd_rfl
    simp only [mloadStep, uint256ToUint64, hmm]
  · intro m f c off sz rest
    have hmm : off % 2 ^ 64 % 2 ^ 64 = off % 2 ^ 64 := Nat.mod_mod_of_dvd off dvd_rfl
    simp only [returnStep, uint256ToUint64, hmm]
  · intro m f c off sz rest
    have hmm : off % 2 ^ 64 % 2 ^ 64 = off % 2 ^ 64 := Nat.mod_mod_of_dvd off dvd_rfl
    simp only [revertStep, uint256ToUint64, hmm]
  · intro m f rd off2 rest
    simp only [callDataCopyStep, checkMemU256, checkMemU64, UINT64MAX]
    norm_num

/-- C10: the LOG handler computes its required memory size as the uint64 sum
offset + size with no integer-overflow check: it can never halt with the
integer-overflow status, and on offset 2^64 - 8 with size 8 the sum wraps to
0, so the handler proceeds (charging only the 64 gas of the log data, with no
expansion), while RETURN on the same operands halts with integer-overflow
through the checked path the other offset + size opcodes share. -/
theorem c10_log_required_size_wraps_mod_2pow64 :
    (∀ (nt m : Nat) (f : EVMFrame) (rd : List Nat),
      (logStep nt m f (.init rd)).2.status ≠ .integerOverflow) ∧
    (∀ (m : Nat) (f : EVMFrame) (rd : List Nat),
      f.stack = [2 ^ 64 - 8, 8] → f.isStatic = false → 64 ≤ f.gas →
      logStep 0 m f (.init rd) =
        ({ f with stack := [], gas := f.gas - 64 }, .init rd)) ∧
    (∀ (m : Nat) (f : EVMFrame) (rd : List Nat),
      f.stack = [2 ^ 64 - 8, 8] →
      (returnStep m f (.init rd)).2.status = .integerOverflow) := by
  refine ⟨?_, ?_, ?_⟩
  · intro nt m f rd
    simp only [logStep]
    split
    · simp [EVMContext.init]
    · split
      · simp [EVMContext.init]
      · split
        · split
          · rename_i e heq
            rcases expandMem_fail heq with h | h <;> simp [h, EVMContext.init]
          · split
            · simp [EVMContext.init]
            · simp [EVMContext.init]
        · simp [EVMContext.init]
  · intro m f rd hstack hstatic hgas
    have hgas2 : ¬ f.gas - 0 < 64 := by omega
    simp only [logStep, hstack, hstatic]
    rw [if_neg (by simp)]
    rw [if_neg (by simp)]
    norm_num [expandMem, calculateMemoryExpansionCost, chargeGas, uint256ToUint64,
      EVMContext.init, hgas2]
    rw [if_neg (Nat.not_lt.mpr hgas)]
  · intro m f rd hstack
    simp only [returnStep, hstack, uint256ToUint64, checkMemU64, UINT64MAX]
    norm_num

/-- C10, witness: the wrapping LOG0 and the overflow-checked RETURN on the
frame whose offset is 2^64 - 8 and size 8. -/
theorem c10_log_wrap_witness :
    (frameWrap.stack = [2 ^ 64 - 8, 8] ∧ frameWrap.isStatic = false ∧
     64 ≤ frameWrap.gas ∧
     logStep 0 (2 ^ 32) frameWrap (.init []) =
       ({ frameWrap with stack := [], gas := 36 }, .init [])) ∧
    (returnStep (2 ^ 32) frameWrap (.init [])).2.status = .integerOverflow :=
  ⟨⟨by decide, by decide, by decide,
    (c10_log_required_size_wraps_mod_2pow64.2.1 (2 ^ 32) frameWrap [] (by decide)
      (by decide) (by decide)).trans (by decide)⟩,
   c10_log_required_size_wraps_mod_2pow64.2.2 (2 ^ 32) frameWrap [] (by decide)⟩

end DTVM
